import Mathlib

/-!
# Verification of the chemviewHarvest core against its specification

Shallow embedding of the three core components of the chemviewHarvest
repository:

* the harvest state store (`src/HarvestDB.py`, `src/setupDB.py`),
* the retry decision functions (`do_need_download` in
  `src/harvest_framework.py` and `_need_download_from_db` in
  `src/drive_substantial_risk_download.py`),
* the download-plan accumulator (`src/download_plan.py`),
* the orchestrator row loop (`run_harvest` in `src/harvest_framework.py`).

Timestamps are modelled as integers (seconds); SQL NULL / Python None is
modelled as `Option.none`.  Each definition is translated from the Python
source named in its doc comment.
-/

/-- One row of the `harvest_log` table, schema from `src/setupDB.py`
(`setup_database`): columns `local_filepath`, `last_success_datetime`,
`last_failure_datetime`, `navigate_via` (all nullable), keyed by
`(chemical_id, file_type)`. -/
structure HarvestRecord where
  local_filepath : Option String
  last_success_datetime : Option Int
  last_failure_datetime : Option Int
  navigate_via : Option String
deriving Repr, DecidableEq

/-- The embedded SQLite store of `src/HarvestDB.py`.  `available` models
whether the underlying file can be reached (when it cannot, `sqlite3`
raises `sqlite3.Error` inside the methods); `rows` is the `harvest_log`
table, keyed by `(chemical_id, file_type)` with at most one row per key. -/
structure HarvestDB where
  available : Bool
  rows : List (String × String × HarvestRecord)
deriving Repr, DecidableEq

/-- Lookup of the unique row for a `(chemical_id, file_type)` key
(the `SELECT ... WHERE chemical_id = ? AND file_type = ?` of
`HarvestDB.get_harvest_status`). -/
def findRecord : List (String × String × HarvestRecord) → String → String → Option HarvestRecord
  | [], _, _ => none
  | (i, f, r) :: rest, id, ft =>
      if i = id ∧ f = ft then some r else findRecord rest id ft

/-- `HarvestDB.get_harvest_status` (src/HarvestDB.py lines 36-65): returns
the row as a dict, or `None` when no row exists.  The `except
sqlite3.Error` branch (store unreachable) prints a message and also
returns `None`. -/
def get_harvest_status (db : HarvestDB) (chemical_id file_type : String) : Option HarvestRecord :=
  if db.available then findRecord db.rows chemical_id file_type else none

/-- `INSERT OR REPLACE` upsert used by `HarvestDB.log_success`: the whole
row for the key is replaced (columns not named in the INSERT, i.e.
`navigate_via`, become NULL via the replacement record passed here). -/
def setRecord : List (String × String × HarvestRecord) → String → String → HarvestRecord → List (String × String × HarvestRecord)
  | [], id, ft, r => [(id, ft, r)]
  | (i, f, r0) :: rest, id, ft, r =>
      if i = id ∧ f = ft then (id, ft, r) :: rest else (i, f, r0) :: setRecord rest id ft r

/-- `HarvestDB.log_success` (src/HarvestDB.py lines 67-79):
`INSERT OR REPLACE INTO harvest_log (chemical_id, file_type,
local_filepath, last_success_datetime, last_failure_datetime) VALUES
(?, ?, ?, now, NULL)`.  The method has no `navigate_via` parameter, and
the replace leaves that column NULL.  On a store error `_execute_query`
returns `None` and nothing is written. -/
def log_success (db : HarvestDB) (chemical_id file_type : String) (local_filepath : Option String) (now : Int) : HarvestDB :=
  if db.available then
    { db with rows := setRecord db.rows chemical_id file_type ⟨local_filepath, some now, none, none⟩ }
  else db

/-- `INSERT ... ON CONFLICT (chemical_id, file_type) DO UPDATE SET
last_failure_datetime = excluded.last_failure_datetime` used by
`HarvestDB.log_failure`: a fresh row gets only the failure time; an
existing row keeps every other column. -/
def updateFailure : List (String × String × HarvestRecord) → String → String → Int → List (String × String × HarvestRecord)
  | [], id, ft, now => [(id, ft, ⟨none, none, some now, none⟩)]
  | (i, f, r0) :: rest, id, ft, now =>
      if i = id ∧ f = ft then
        (i, f, ⟨r0.local_filepath, r0.last_success_datetime, some now, r0.navigate_via⟩) :: rest
      else (i, f, r0) :: updateFailure rest id ft now

/-- `HarvestDB.log_failure` (src/HarvestDB.py lines 81-96).  The method
takes only `(chemical_id, file_type)`; on conflict it updates only
`last_failure_datetime`. -/
def log_failure (db : HarvestDB) (chemical_id file_type : String) (now : Int) : HarvestDB :=
  if db.available then
    { db with rows := updateFailure db.rows chemical_id file_type now }
  else db

/-- `do_need_download` (src/harvest_framework.py lines 49-68).  Reads the
status record; with a record present and no success: returns `true` when
no failure is recorded, and `false` whenever a failure is recorded — the
"Skipping retry FOR NOW" branch takes no retry interval into account.
No record at all yields `true`. -/
def do_need_download (db : HarvestDB) (cas_val file_type : String) : Bool :=
  match get_harvest_status db cas_val file_type with
  | some record =>
      if record.last_success_datetime = none then
        if record.last_failure_datetime = none then true else false
      else false
  | none => true

/-- The `timedelta(hours=24)` constant of `_need_download_from_db`, in
seconds. -/
def hours24InSeconds : Int := 24 * 3600

/-- `_need_download_from_db` (src/drive_substantial_risk_download.py
lines 25-66).  With a record present and no success: no failure yields
`true`; a failure yields `true` exactly when `now - last_failure >
timedelta(hours=24)` (the interval is hardcoded, not a parameter).  No
record yields `true`; any success yields `false`. -/
def needDownloadFromDb (db : HarvestDB) (cas_val file_type : String) (now : Int) : Bool :=
  match get_harvest_status db cas_val file_type with
  | some record =>
      if record.last_success_datetime ≠ none then false
      else
        match record.last_failure_datetime with
        | some tf => decide (now - tf > hours24InSeconds)
        | none => true
  | none => true

/-! ## Helper lemmas about the store operations -/

theorem findRecord_setRecord (rows : List (String × String × HarvestRecord)) (id ft : String) (r : HarvestRecord) :
    findRecord (setRecord rows id ft r) id ft = some r := by
  induction rows with
  | nil => simp [setRecord, findRecord]
  | cons head tail ih =>
      obtain ⟨i, f, r0⟩ := head
      by_cases hif : i = id ∧ f = ft
      · simp [setRecord, findRecord, hif]
      · simp [setRecord, findRecord, hif, ih]

theorem setRecord_idem (rows : List (String × String × HarvestRecord)) (id ft : String) (r : HarvestRecord) :
    setRecord (setRecord rows id ft r) id ft r = setRecord rows id ft r := by
  induction rows with
  | nil => simp [setRecord]
  | cons head tail ih =>
      obtain ⟨i, f, r0⟩ := head
      by_cases hif : i = id ∧ f = ft
      · simp [setRecord, hif]
      · simp [setRecord, hif, ih]

theorem findRecord_updateFailure (rows : List (String × String × HarvestRecord)) (id ft : String) (now : Int) (r0 : HarvestRecord)
    (h : findRecord rows id ft = some r0) :
    findRecord (updateFailure rows id ft now) id ft
      = some ⟨r0.local_filepath, r0.last_success_datetime, some now, r0.navigate_via⟩ := by
  induction rows with
  | nil => simp [findRecord] at h
  | cons head tail ih =>
      obtain ⟨i, f, rr⟩ := head
      by_cases hif : i = id ∧ f = ft
      · simp [findRecord, hif] at h
        subst h
        simp [updateFailure, findRecord, hif]
      · simp [findRecord, hif] at h
        simp [updateFailure, findRecord, hif, ih h]

theorem available_of_get_some (db : HarvestDB) (id ft : String) (r : HarvestRecord)
    (h : get_harvest_status db id ft = some r) : db.available = true := by
  cases hb : db.available with
  | true => rfl
  | false => simp [get_harvest_status, hb] at h

theorem success_after_failures (ts : List Int) (db : HarvestDB) (id ft : String) (r0 : HarvestRecord)
    (hav : db.available = true) (h : findRecord db.rows id ft = some r0) :
    ∃ r1, (ts.foldl (fun d tf => log_failure d id ft tf) db).available = true ∧
      findRecord (ts.foldl (fun d tf => log_failure d id ft tf) db).rows id ft = some r1 ∧
      r1.last_success_datetime = r0.last_success_datetime := by
  induction ts generalizing db r0 with
  | nil => exact ⟨r0, hav, h, rfl⟩
  | cons t ts ih =>
      have hrows : (log_failure db id ft t).rows = updateFailure db.rows id ft t := by
        simp [log_failure, hav]
      have hav' : (log_failure db id ft t).available = true := by
        simp [log_failure, hav]
      have hfind : findRecord (log_failure db id ft t).rows id ft
          = some ⟨r0.local_filepath, r0.last_success_datetime, some t, r0.navigate_via⟩ := by
        rw [hrows]
        exact findRecord_updateFailure db.rows id ft t r0 h
      obtain ⟨r1, h1, h2, h3⟩ := ih (log_failure db id ft t) _ hav' hfind
      exact ⟨r1, h1, h2, h3⟩

/-! ## C1: the cool-down retry policy -/

/-- C1 counterexample.  The claim says the retry decision function
(`needs_fetch` / `do_need_download`) returns `true` for a record with
absent success time and a failure time older than `retry_interval_hours`.
Concrete input: record for `("c","h")` with no success and a failure at
time 0, read at time 1000000 s (≈ 278 hours later — older than any
configured interval, 12 h or 24 h).  `do_need_download` returns `false`
(it skips the retry regardless of how old the failure is), refuting the
claim as stated; only `needDownloadFromDb` (the `_need_download_from_db`
variant, fixed 24-hour window) returns `true` there. -/
theorem retry_cooldown_claim_cex :
    get_harvest_status ⟨true, [("c", "h", ⟨none, none, some 0, none⟩)]⟩ "c" "h"
      = some ⟨none, none, some 0, none⟩ ∧
    do_need_download ⟨true, [("c", "h", ⟨none, none, some 0, none⟩)]⟩ "c" "h" = false ∧
    needDownloadFromDb ⟨true, [("c", "h", ⟨none, none, some 0, none⟩)]⟩ "c" "h" 1000000 = true :=
  ⟨rfl, rfl, rfl⟩

/-- C1 amended: `_need_download_from_db` implements the cool-down with a
fixed 24-hour interval (true exactly when the failure is more than 24
hours old), while `do_need_download` in harvest_framework.py returns
`false` whenever a failure is recorded and no success, regardless of the
failure's age. -/
theorem retry_decision_amended (db : HarvestDB) (id ft : String) (r : HarvestRecord) (tf now : Int)
    (hrec : get_harvest_status db id ft = some r)
    (hs : r.last_success_datetime = none)
    (hf : r.last_failure_datetime = some tf) :
    needDownloadFromDb db id ft now = decide (now - tf > hours24InSeconds) ∧
    do_need_download db id ft = false := by
  unfold needDownloadFromDb do_need_download
  rw [hrec]
  simp [hs, hf]

/-- Witness for `retry_decision_amended` at a concrete store. -/
theorem retry_decision_amended_witness :
    needDownloadFromDb ⟨true, [("c", "h", ⟨none, none, some 0, none⟩)]⟩ "c" "h" 1000000
      = decide ((1000000 : Int) - 0 > hours24InSeconds) ∧
    do_need_download ⟨true, [("c", "h", ⟨none, none, some 0, none⟩)]⟩ "c" "h" = false :=
  retry_decision_amended ⟨true, [("c", "h", ⟨none, none, some 0, none⟩)]⟩ "c" "h"
    ⟨none, none, some 0, none⟩ 0 1000000 rfl rfl rfl

/-! ## C3: a failed status read is coerced to "no record" -/

/-- C3: when the underlying SQLite store cannot be reached,
`get_harvest_status` catches `sqlite3.Error` and returns `None` — the
same value as "no record" — and `do_need_download` then returns `true`,
even though the store actually holds a success record for the pair.
The claim (a defined error outcome distinct from true/false, never
treated as "no record") is violated; the code's own comment in
`_need_download_from_db` ("If we can't read the db, we don't want to be
doing downloads") and the docstring of `get_harvest_status` ("None if
the record doesn't exist") show the conservative intent. -/
theorem store_error_read_as_no_record :
    get_harvest_status ⟨false, [("c", "h", ⟨some "/a/p.html", some 10, none, none⟩)]⟩ "c" "h" = none ∧
    do_need_download ⟨false, [("c", "h", ⟨some "/a/p.html", some 10, none, none⟩)]⟩ "c" "h" = true :=
  ⟨rfl, rfl⟩

/-! ## C6: record_success and navigate_via -/

/-- C6 counterexample.  The claim says `record_success(entity_id,
artifact_type, local_path, navigate_via)` stores both `local_path` and
`navigate_via`.  `HarvestDB.log_success` has no `navigate_via` parameter
at all, and its `INSERT OR REPLACE` rewrites the whole row, so the
`navigate_via` column comes out NULL: starting from a record whose
`navigate_via` is `"http://prov"`, the record after `log_success` has
`navigate_via = none` — nothing is stored there (nor preserved). -/
theorem record_success_navigate_via_cex :
    get_harvest_status ⟨true, [("e", "a", ⟨some "/old.html", some 5, none, some "http://prov"⟩)]⟩ "e" "a"
      = some ⟨some "/old.html", some 5, none, some "http://prov"⟩ ∧
    get_harvest_status
        (log_success ⟨true, [("e", "a", ⟨some "/old.html", some 5, none, some "http://prov"⟩)]⟩
          "e" "a" (some "/new.html") 9) "e" "a"
      = some ⟨some "/new.html", some 9, none, none⟩ :=
  ⟨rfl, rfl⟩

/-- C6 amended: `record_success(entity_id, artifact_type, local_path)`
upserts the record for the pair: success time becomes the current time,
`local_path` is stored, the failure time becomes absent, and — the call
having no `navigate_via` parameter — the replace also resets
`navigate_via` to absent.  Calling twice with the same arguments yields
the same final store state (idempotent). -/
theorem record_success_amended (db : HarvestDB) (id ft : String) (p : Option String) (t : Int)
    (hav : db.available = true) :
    get_harvest_status (log_success db id ft p t) id ft = some ⟨p, some t, none, none⟩ ∧
    log_success (log_success db id ft p t) id ft p t = log_success db id ft p t := by
  constructor
  · simp [get_harvest_status, log_success, hav, findRecord_setRecord]
  · simp [log_success, hav, setRecord_idem]

/-- Witness for `record_success_amended` at a concrete store. -/
theorem record_success_amended_witness :
    get_harvest_status (log_success ⟨true, [("e", "a", ⟨some "/old.html", some 5, some 2, some "http://prov"⟩)]⟩ "e" "a" (some "/new.html") 9) "e" "a"
      = some ⟨some "/new.html", some 9, none, none⟩ ∧
    log_success (log_success ⟨true, [("e", "a", ⟨some "/old.html", some 5, some 2, some "http://prov"⟩)]⟩ "e" "a" (some "/new.html") 9) "e" "a" (some "/new.html") 9
      = log_success ⟨true, [("e", "a", ⟨some "/old.html", some 5, some 2, some "http://prov"⟩)]⟩ "e" "a" (some "/new.html") 9 :=
  record_success_amended ⟨true, [("e", "a", ⟨some "/old.html", some 5, some 2, some "http://prov"⟩)]⟩
    "e" "a" (some "/new.html") 9 rfl

/-! ## C7: record_failure frame effect -/

/-- C7 counterexample.  The claim says `record_failure` sets the failure
time *and* `navigate_via`.  `HarvestDB.log_failure` takes no
`navigate_via` argument and its `ON CONFLICT ... DO UPDATE` touches only
`last_failure_datetime`: on a record with a success, a `local_path` and
an absent `navigate_via`, the record after `log_failure` at time 50 has
the failure time set but `navigate_via` still absent — it was not set. -/
theorem record_failure_navigate_via_cex :
    get_harvest_status
        (log_failure ⟨true, [("e", "a", ⟨some "/p.html", some 5, none, none⟩)]⟩ "e" "a" 50) "e" "a"
      = some ⟨some "/p.html", some 5, some 50, none⟩ :=
  rfl

/-- C7 amended: for every pair that already has a record,
`record_failure(entity_id, artifact_type)` sets only the failure time;
`local_path`, the success time and `navigate_via` are all left exactly
as they were (in particular a pair that already has a success never has
its `local_path` or success time cleared). -/
theorem record_failure_frame (db : HarvestDB) (id ft : String) (t : Int) (r0 : HarvestRecord)
    (h : get_harvest_status db id ft = some r0) :
    get_harvest_status (log_failure db id ft t) id ft
      = some ⟨r0.local_filepath, r0.last_success_datetime, some t, r0.navigate_via⟩ := by
  have hav : db.available = true := available_of_get_some db id ft r0 h
  rw [get_harvest_status, if_pos hav] at h
  simp [get_harvest_status, log_failure, hav, findRecord_updateFailure db.rows id ft t r0 h]

/-- Witness for `record_failure_frame` at a concrete store. -/
theorem record_failure_frame_witness :
    get_harvest_status
        (log_failure ⟨true, [("e", "a", ⟨some "/p.html", some 5, none, some "http://nav"⟩)]⟩ "e" "a" 50) "e" "a"
      = some ⟨some "/p.html", some 5, some 50, some "http://nav"⟩ :=
  record_failure_frame ⟨true, [("e", "a", ⟨some "/p.html", some 5, none, some "http://nav"⟩)]⟩
    "e" "a" 50 ⟨some "/p.html", some 5, none, some "http://nav"⟩ rfl

/-! ## C8: one-shot-success policy -/

/-- C8: after `record_success` for a pair, both retry decision functions
return `false` at every later read time — `do_need_download`
unconditionally, and `needDownloadFromDb` for every value of `now`
(i.e. however much time has elapsed, hence for every retry-interval
policy) — regardless of any sequence of later `record_failure` calls on
the same pair, because `log_failure` never touches an existing
`last_success_datetime`. -/
theorem one_shot_success_policy (db : HarvestDB) (id ft : String) (p : Option String) (t : Int)
    (failTimes : List Int) (now : Int) (hav : db.available = true) :
    do_need_download (failTimes.foldl (fun d tf => log_failure d id ft tf) (log_success db id ft p t)) id ft = false ∧
    needDownloadFromDb (failTimes.foldl (fun d tf => log_failure d id ft tf) (log_success db id ft p t)) id ft now = false := by
  have hav1 : (log_success db id ft p t).available = true := by
    simp [log_success, hav]
  have hfind1 : findRecord (log_success db id ft p t).rows id ft = some ⟨p, some t, none, none⟩ := by
    simp [log_success, hav, findRecord_setRecord]
  obtain ⟨r1, havF, hfindF, hsucc⟩ :=
    success_after_failures failTimes (log_success db id ft p t) id ft ⟨p, some t, none, none⟩ hav1 hfind1
  have hget : get_harvest_status (failTimes.foldl (fun d tf => log_failure d id ft tf) (log_success db id ft p t)) id ft = some r1 := by
    simp [get_harvest_status, havF, hfindF]
  constructor
  · unfold do_need_download
    rw [hget]
    simp [hsucc]
  · unfold needDownloadFromDb
    rw [hget]
    simp [hsucc]

/-- Witness for `one_shot_success_policy`: success at time 7, then two
later failures, read far in the future. -/
theorem one_shot_success_policy_witness :
    do_need_download ([100, 200000].foldl (fun d tf => log_failure d "e" "a" tf) (log_success ⟨true, []⟩ "e" "a" (some "/x.html") 7)) "e" "a" = false ∧
    needDownloadFromDb ([100, 200000].foldl (fun d tf => log_failure d "e" "a" tf) (log_success ⟨true, []⟩ "e" "a" (some "/x.html") 7)) "e" "a" 1000000000 = false :=
  one_shot_success_policy ⟨true, []⟩ "e" "a" (some "/x.html") 7 [100, 200000] 1000000000 rfl

/-! ## Download plan builder (src/download_plan.py) -/

/-- One plan-tree node, the dict shape
`{'folder': ..., 'subfolderList': [...], 'downloadList': [...]}` used
throughout src/download_plan.py. -/
inductive PlanNode where
  | mk (folder : String) (subfolderList : List PlanNode) (downloadList : List String)

/-- The `folder` entry of a plan node. -/
def PlanNode.folder : PlanNode → String
  | .mk f _ _ => f

/-- The `subfolderList` entry of a plan node. -/
def PlanNode.subfolderList : PlanNode → List PlanNode
  | .mk _ s _ => s

/-- The `downloadList` entry of a plan node. -/
def PlanNode.downloadList : PlanNode → List String
  | .mk _ _ u => u

/-- Linear scan for the first child entry with the given folder name
(the `for entry in plan.get('subfolderList', [])` loops of
`_ensure_cas_entry` and `_ensure_subfolder_path`). -/
def findChild : List PlanNode → String → Option PlanNode
  | [], _ => none
  | c :: cs, p => if c.folder = p then some c else findChild cs p

/-- Write back an updated child: replace the first child with the given
name in place, or append a new entry at the end when none exists
(matching the `append` of `_ensure_cas_entry` / `_ensure_subfolder_path`
followed by in-place mutation). -/
def setChild : List PlanNode → String → PlanNode → List PlanNode
  | [], _, c2 => [c2]
  | c :: cs, p, c2 => if c.folder = p then c2 :: cs else c :: setChild cs p c2

/-- The URL-adding loop of `add_links_to_plan` (src/download_plan.py
lines 166-177): empty URLs are skipped without counting; a URL already
in the leaf's `downloadList` counts as a duplicate; otherwise it is
appended and counted as added.  Returns (new list, added, duplicates). -/
def addUrls : List String → List String → List String × Nat × Nat
  | urls, [] => (urls, 0, 0)
  | urls, l :: ls =>
      if l = "" then addUrls urls ls
      else if l ∈ urls then
        let r := addUrls urls ls
        (r.1, r.2.1, r.2.2 + 1)
      else
        let r := addUrls (urls ++ [l]) ls
        (r.1, r.2.1 + 1, r.2.2)

/-- Walk/create the nested folder path below a node and add the links at
the leaf: the composition of `_ensure_cas_entry` (first path segment
below the root), `_ensure_subfolder_path` (remaining segments) and the
URL loop of `add_links_to_plan`.  At each depth the first child with a
matching name is reused, otherwise a fresh
`{'folder': part, 'subfolderList': [], 'downloadList': []}` entry is
appended at the end. -/
def addAtPath : List String → List String → PlanNode → PlanNode × Nat × Nat
  | [], links, .mk f subs urls =>
      let r := addUrls urls links
      (.mk f subs r.1, r.2.1, r.2.2)
  | p :: ps, links, .mk f subs urls =>
      let c := (findChild subs p).getD (.mk p [] [])
      let r := addAtPath ps links c
      (.mk f (setChild subs p r.1) urls, r.2.1, r.2.2)

/-- Read-only descent used to state where URLs ended up. -/
def findPath : List String → PlanNode → Option PlanNode
  | [], n => some n
  | p :: ps, n =>
      match findChild n.subfolderList p with
      | none => none
      | some c => findPath ps c

/-- Character-level splitter for path separators (structural, so that
concrete plans evaluate by `rfl`). -/
def splitCharsAux : List Char → List Char → List (List Char)
  | [], acc => [acc.reverse]
  | c :: cs, acc =>
      if c = '/' ∨ c = '\\' then acc.reverse :: splitCharsAux cs []
      else splitCharsAux cs (c :: acc)

/-- `re.split` on `[\\/]+` with empty parts dropped, as in
`_normalize_subpath` (string branch) and used for `Path(cas_dir).name`. -/
def splitPath (s : String) : List String :=
  ((splitCharsAux s.data []).map (fun l => String.mk l)).filter (fun p => p ≠ "")

/-- Python `str.strip()`: leading and trailing whitespace removed. -/
def trimString (s : String) : String :=
  String.mk (((s.data.dropWhile Char.isWhitespace).reverse.dropWhile Char.isWhitespace).reverse)

/-- The `'-' in p` test of the CAS heuristic. -/
def containsHyphen (p : String) : Bool := p.data.contains '-'

/-- `Path(cas_dir).name`: the last path component, `""` when there is
none. -/
def pathName (s : String) : String :=
  ((splitPath s).getLast?).getD ""

/-- `subfolder_name` may arrive as a single slash/backslash-separated
string or as a pre-split list (`_normalize_subpath`). -/
inductive Subpath where
  | str (s : String)
  | parts (l : List String)

/-- `_normalize_subpath` (src/download_plan.py lines 54-66): a string is
split on both separators dropping empties; a list keeps its non-empty
entries. -/
def normalizeSubpath : Subpath → List String
  | .str s => splitPath s
  | .parts l => l.filter (fun p => p ≠ "")

/-- Python falsiness of the raw `subfolder_name` argument (`not
subfolder_name`): the empty string or the empty list. -/
def subpathIsFalsy : Subpath → Bool
  | .str s => s = ""
  | .parts l => l = []

/-- The CAS-segment heuristic of `add_links_to_plan` (lines 143-156):
scan the parts for the first one containing a hyphen; that part is the
CAS folder and the parts after it are the relative subpath.  `none` when
no part contains a hyphen. -/
def extractCas : List String → Option (String × List String)
  | [] => none
  | p :: ps => if containsHyphen p then some (p, ps) else extractCas ps

/-- `parts.index(cas_folder_name)` followed by `parts[idx+1:]` (lines
131-136): the tail after the first occurrence of the name, or `none`
when the name does not occur (the `ValueError` branch). -/
def splitAtName : List String → String → Option (List String)
  | [], _ => none
  | p :: ps, name => if p = name then some ps else splitAtName ps name

/-- The module-level accumulator state of src/download_plan.py:
`DOWNLOAD_PLAN_ACCUM` (the tree), `DOWNLOAD_PLAN_ACCUM_CAS_SET`,
`DOWNLOAD_PLAN_ACCUM_CAS_SINCE_WRITE`, `DOWNLOAD_PLAN_WRITE_BATCH_SIZE`,
plus the sequence of trees written to disk so far (`flushed`, one entry
per `_write_plan_to_disk` call). -/
structure PlanState where
  accum : PlanNode
  casSet : List String
  sinceWrite : Nat
  batchSize : Nat
  flushed : List PlanNode

/-- A fresh accumulator tree with only the logical folder name
(`{'folder': folder, 'subfolderList': [], 'downloadList': []}`). -/
def emptyPlan (folder : String) : PlanNode := .mk folder [] []

/-- The state right after `init(folder, out_dir, batch_size)`. -/
def initPlanState (folder : String) (batch : Nat) : PlanState :=
  ⟨emptyPlan folder, [], 0, batch, []⟩

/-- CAS-folder determination of `add_links_to_plan` (src/download_plan.py
lines 117-156): with a non-empty `cas_dir` the CAS folder is
`Path(cas_dir).name` and the parts up to and including that segment are
stripped from the subpath when present (otherwise the whole subpath is
relative); with a falsy `cas_dir` the first hyphen-containing part is
the CAS folder, `none` when there is no such part. -/
def resolveCas (casDir : String) (sub : Subpath) : Option (String × List String) :=
  let parts := normalizeSubpath sub
  if casDir ≠ "" then
    some (pathName casDir, (splitAtName parts (pathName casDir)).getD parts)
  else extractCas parts

/-- `add_links_to_plan(plan, cas_dir, subfolder_name, links)`
(src/download_plan.py lines 95-210), for calls where `plan` is the
module-level accumulator `DOWNLOAD_PLAN_ACCUM` (as in every driver call
site).  Faithful to the source order of operations:
1. empty `links` returns (0,0) untouched;
2. falsy `cas_dir` together with falsy `subfolder_name` returns (0,0);
3. the CAS folder is resolved by `resolveCas`; no CAS returns (0,0); a
   name that strips to empty returns (0,0);
4. the links are added at the leaf **first** (lines 163-177);
5. only then, for a CAS not seen since the last write, the batch check
   runs: when `sinceWrite >= batchSize` the *current* tree — already
   holding the new CAS's links — is written out and the module state is
   reset, after which the CAS is registered in the fresh state
   (lines 183-205). -/
def addLinksToPlan (st : PlanState) (casDir : String) (subfolder : Subpath) (links : List String) : PlanState × Nat × Nat :=
  if links = [] then (st, 0, 0)
  else if casDir = "" ∧ subpathIsFalsy subfolder then (st, 0, 0)
  else
    match resolveCas casDir subfolder with
    | none => (st, 0, 0)
    | some (casRaw, rel) =>
      let cas := trimString casRaw
      if cas = "" then (st, 0, 0)
      else
        let r := addAtPath (cas :: rel) links st.accum
        if cas ∈ st.casSet then
          ({ st with accum := r.1 }, r.2.1, r.2.2)
        else if st.sinceWrite ≥ st.batchSize then
          (⟨emptyPlan st.accum.folder, [cas], 1, st.batchSize, st.flushed ++ [r.1]⟩, r.2.1, r.2.2)
        else
          ({ st with accum := r.1, casSet := cas :: st.casSet, sinceWrite := st.sinceWrite + 1 }, r.2.1, r.2.2)

/-! ## Helper lemmas about the plan tree -/

/-- The single-branch tree produced by adding one URL set along a fresh
path. -/
def mkChain : String → List String → List String → PlanNode
  | f, [], urls => .mk f [] urls
  | f, p :: ps, urls => .mk f [mkChain p ps urls] []

theorem mkChain_folder (f : String) (ps : List String) (urls : List String) :
    (mkChain f ps urls).folder = f := by
  cases ps <;> rfl

theorem addAtPath_fresh (ps : List String) (f url : String) (h : url ≠ "") :
    addAtPath ps [url] (.mk f [] []) = (mkChain f ps [url], 1, 0) := by
  induction ps generalizing f with
  | nil => simp [addAtPath, addUrls, h, mkChain]
  | cons p ps ih =>
      simp [addAtPath, findChild, setChild, mkChain, ih p]

theorem addAtPath_dup (ps : List String) (f url : String) (h : url ≠ "") :
    addAtPath ps [url] (mkChain f ps [url]) = (mkChain f ps [url], 0, 1) := by
  induction ps generalizing f with
  | nil => simp [mkChain, addAtPath, addUrls, h]
  | cons p ps ih =>
      simp [mkChain, addAtPath, findChild, mkChain_folder, setChild, ih p]

theorem findPath_mkChain (ps : List String) (f : String) (urls : List String) :
    (findPath ps (mkChain f ps urls)).map PlanNode.downloadList = some urls := by
  induction ps generalizing f with
  | nil => simp [mkChain, findPath, PlanNode.downloadList]
  | cons p ps ih =>
      simp [mkChain, findPath, findChild, mkChain_folder, PlanNode.subfolderList, ih p]

theorem extractCas_eq_none (l : List String) (h : ∀ p ∈ l, containsHyphen p = false) :
    extractCas l = none := by
  induction l with
  | nil => rfl
  | cons p ps ih =>
      have hp := h p (List.mem_cons_self p ps)
      simp [extractCas, hp]
      exact ih (fun q hq => h q (List.mem_cons_of_mem p hq))

/-! ## C2: the batching invariant -/

/-- C2: with batch threshold 1, adding URLs for two distinct groups
(one `add_links` call per group) triggers exactly one flush — but,
contrary to the claim, the flush happens *after* the second group's URLs
were already added to the tree (lines 163-177 run before the batch check
at lines 183-205), so the flushed file contains the new group
`CAS-B`'s URL `u2`, and the post-flush tree is empty rather than holding
`CAS-B`.  A third call for the same group `CAS-B` then lands its URL
`u3` in the fresh tree while `u2` sits in the already-written file:
the group *is* split across two output files, contradicting the claim
and the code's own comments ("flush now so the CAS starts in a fresh
output file and all its entries go to the same file"). -/
theorem new_group_flushed_with_batch :
    (let st1 := (addLinksToPlan (initPlanState "chemview_archive" 1) "" (.str "CAS-A") ["u1"]).1
     let st2 := (addLinksToPlan st1 "" (.str "CAS-B") ["u2"]).1
     let st3 := (addLinksToPlan st2 "" (.str "CAS-B") ["u3"]).1
     st2.flushed = [.mk "chemview_archive" [.mk "CAS-A" [] ["u1"], .mk "CAS-B" [] ["u2"]] []] ∧
     st2.accum = emptyPlan "chemview_archive" ∧
     st3.flushed = st2.flushed ∧
     st3.accum = .mk "chemview_archive" [.mk "CAS-B" [] ["u3"]] []) :=
  ⟨rfl, rfl, rfl, rfl⟩

/-! ## C10: unresolvable inputs are a no-op -/

/-- C10: `add_links_to_plan` called with an empty URL list, or with a
falsy `cas_dir` and a subpath none of whose segments contains a hyphen
(so the group-key heuristic finds no CAS folder), returns `(0, 0)` and
leaves the whole accumulator state — tree, distinct-group set and
groups-since-flush counter — unchanged.  (The embedding is a total
function, so no exception is possible on this path.) -/
theorem add_links_invalid_inputs_noop (st : PlanState) (casDir : String) (sub : Subpath) (links : List String)
    (h : links = [] ∨ (casDir = "" ∧ ∀ p ∈ normalizeSubpath sub, containsHyphen p = false)) :
    addLinksToPlan st casDir sub links = (st, 0, 0) := by
  rcases h with h | ⟨hc, hnh⟩
  · subst h
    simp [addLinksToPlan]
  · unfold addLinksToPlan
    by_cases hl : links = []
    · simp [hl]
    · rw [if_neg hl]
      cases hf : subpathIsFalsy sub with
      | true => rw [if_pos ⟨hc, rfl⟩]
      | false =>
          rw [if_neg (by simp [hf])]
          have : resolveCas casDir sub = none := by
            simp [resolveCas, hc, extractCas_eq_none _ hnh]
          rw [this]

/-- Witness for `add_links_invalid_inputs_noop`: non-empty links, falsy
`cas_dir`, hyphen-free subpath. -/
theorem add_links_invalid_inputs_noop_witness :
    addLinksToPlan (initPlanState "chemview_archive" 25) "" (.str "reports/subdir") ["http://x.pdf"]
      = (initPlanState "chemview_archive" 25, 0, 0) :=
  add_links_invalid_inputs_noop (initPlanState "chemview_archive" 25) "" (.str "reports/subdir")
    ["http://x.pdf"] (Or.inr ⟨rfl, by decide⟩)

/-! ## C9: per-leaf URL deduplication -/

/-- C9: for every group directory, leaf subpath and non-empty URL,
adding the same URL twice under the same leaf path in two `add_links`
calls on a fresh accumulator (batch threshold at least 1, so no flush
intervenes) returns `(added, duplicates) = (1, 0)` on the first call and
`(0, 1)` on the second, and the leaf node's stored URL list is exactly
`[url]` (length 1). -/
theorem add_url_twice_dedups (folder casDir : String) (sub : Subpath) (url : String) (b : Nat)
    (hurl : url ≠ "") (hcd : casDir ≠ "") (hname : trimString (pathName casDir) ≠ "") (hb : 1 ≤ b) :
    (addLinksToPlan (initPlanState folder b) casDir sub [url]).2 = (1, 0) ∧
    (addLinksToPlan (addLinksToPlan (initPlanState folder b) casDir sub [url]).1 casDir sub [url]).2 = (0, 1) ∧
    ((findPath
        (trimString (pathName casDir) :: (splitAtName (normalizeSubpath sub) (pathName casDir)).getD (normalizeSubpath sub))
        (addLinksToPlan (addLinksToPlan (initPlanState folder b) casDir sub [url]).1 casDir sub [url]).1.accum).map
      PlanNode.downloadList) = some [url] := by
  have hres : resolveCas casDir sub
      = some (pathName casDir, (splitAtName (normalizeSubpath sub) (pathName casDir)).getD (normalizeSubpath sub)) := by
    simp [resolveCas, hcd]
  have e1 := addAtPath_fresh
    (trimString (pathName casDir) :: (splitAtName (normalizeSubpath sub) (pathName casDir)).getD (normalizeSubpath sub))
    folder url hurl
  have e2 := addAtPath_dup
    (trimString (pathName casDir) :: (splitAtName (normalizeSubpath sub) (pathName casDir)).getD (normalizeSubpath sub))
    folder url hurl
  have hnb : ¬ (0 ≥ b) := by omega
  have h1 : addLinksToPlan (initPlanState folder b) casDir sub [url]
      = (⟨mkChain folder
            (trimString (pathName casDir) :: (splitAtName (normalizeSubpath sub) (pathName casDir)).getD (normalizeSubpath sub)) [url],
          [trimString (pathName casDir)], 1, b, []⟩, 1, 0) := by
    unfold addLinksToPlan
    rw [hres]
    simp [hcd, hname, initPlanState, emptyPlan, e1, hnb]
  have h2 : addLinksToPlan (addLinksToPlan (initPlanState folder b) casDir sub [url]).1 casDir sub [url]
      = ((addLinksToPlan (initPlanState folder b) casDir sub [url]).1, 0, 1) := by
    rw [h1]
    unfold addLinksToPlan
    rw [hres]
    simp [hcd, hname, e2]
  refine ⟨by rw [h1], by rw [h2, h1], ?_⟩
  rw [h2, h1]
  exact findPath_mkChain _ folder [url]

/-- Witness for `add_url_twice_dedups` at a concrete group directory,
leaf path and URL. -/
theorem add_url_twice_dedups_witness :
    (addLinksToPlan (initPlanState "chemview_archive" 25) "archive/CAS-123-45" (.str "reports") ["http://x.pdf"]).2 = (1, 0) ∧
    (addLinksToPlan (addLinksToPlan (initPlanState "chemview_archive" 25) "archive/CAS-123-45" (.str "reports") ["http://x.pdf"]).1 "archive/CAS-123-45" (.str "reports") ["http://x.pdf"]).2 = (0, 1) ∧
    ((findPath
        (trimString (pathName "archive/CAS-123-45") :: (splitAtName (normalizeSubpath (.str "reports")) (pathName "archive/CAS-123-45")).getD (normalizeSubpath (.str "reports")))
        (addLinksToPlan (addLinksToPlan (initPlanState "chemview_archive" 25) "archive/CAS-123-45" (.str "reports") ["http://x.pdf"]).1 "archive/CAS-123-45" (.str "reports") ["http://x.pdf"]).1.accum).map
      PlanNode.downloadList) = some ["http://x.pdf"] :=
  add_url_twice_dedups "chemview_archive" "archive/CAS-123-45" (.str "reports") "http://x.pdf" 25
    (by decide) (by decide) (by decide) (by decide)

/-! ## Harvest orchestrator (run_harvest, src/harvest_framework.py) -/

/-- One per-artifact-type outcome inside the driver result dict:
`{'success': ..., 'local_file_path': ..., 'error': ..., 'navigate_via': ...}`. -/
structure FileOutcome where
  success : Bool
  local_file_path : Option String
  error : Option String
  navigate_via : Option String
deriving Repr, DecidableEq

/-- The structured outcome returned by a driver callable. -/
structure DriveResult where
  attempted : Bool
  html : FileOutcome
  pdf : FileOutcome
deriving Repr, DecidableEq

/-- Modelled from the spec: the navigate_via-aware upsert behind the
`db.log_success(cas, file_type, local_path, nav_via)` calls that
`run_harvest` makes.  That four-argument `log_success` is not in
src/HarvestDB.py (only its callers are); §4.1 of the spec: sets success
time to now, stores local_path and navigate_via, clears the failure
time. -/
def log_success_nav (db : HarvestDB) (id ft : String) (localPath nav : Option String) (now : Int) : HarvestDB :=
  if db.available then
    { db with rows := setRecord db.rows id ft ⟨localPath, some now, none, nav⟩ }
  else db

/-- Row update for the navigate_via-aware `log_failure`: on conflict the
failure time and navigate_via change, everything else is kept; a fresh
row gets only those two fields. -/
def updateFailureNav : List (String × String × HarvestRecord) → String → String → Option String → Int → List (String × String × HarvestRecord)
  | [], id, ft, nav, now => [(id, ft, ⟨none, none, some now, nav⟩)]
  | (i, f, r0) :: rest, id, ft, nav, now =>
      if i = id ∧ f = ft then
        (i, f, ⟨r0.local_filepath, r0.last_success_datetime, some now, nav⟩) :: rest
      else (i, f, r0) :: updateFailureNav rest id ft nav now

/-- Modelled from the spec: the navigate_via-aware
`db.log_failure(cas, file_type, nav_via)` called by `run_harvest` (not
in src/HarvestDB.py; §4.1: sets failure time to now and navigate_via,
does not touch local_path or success time). -/
def log_failure_nav (db : HarvestDB) (id ft : String) (nav : Option String) (now : Int) : HarvestDB :=
  if db.available then
    { db with rows := updateFailureNav db.rows id ft nav now }
  else db

/-- The `max_downloads` budget check
(`config.max_downloads is not None and download_calls >= config.max_downloads`). -/
def budgetReached (maxDownloads : Option Nat) (calls : Nat) : Bool :=
  match maxDownloads with
  | some m => decide (calls ≥ m)
  | none => false

/-- Blank-row test of the loop
(`if not row or all(not (v and v.strip()) for v in row.values())`):
every value empty or whitespace.  A row is its list of column values. -/
def rowBlank (row : List String) : Bool :=
  row.all (fun v => trimString v = "")

/-- `(row.get(first_field) or '').strip()` — the identifier comes from
the first column. -/
def rowCas (row : List String) : String :=
  trimString ((row.head?).getD "")

/-- `(row.get(last_field) or '').strip()` — the target URL comes from
the last column. -/
def rowUrl (row : List String) : String :=
  trimString ((row.getLast?).getD "")

/-- The mutable run statistics of `run_harvest`: the state store handle
plus `total_rows`, `html_success_count`, `pdf_success_count`,
`download_calls`, and the number of heartbeat lines printed.
(The elapsed-seconds accumulator is not modelled: wall-clock durations
are outside the embedding.) -/
structure RunState where
  db : HarvestDB
  totalRows : Nat
  htmlSuccessCount : Nat
  pdfSuccessCount : Nat
  downloadCalls : Nat
  heartbeats : Nat
deriving Repr, DecidableEq

/-- The run state at loop entry. -/
def initRunState (db : HarvestDB) : RunState := ⟨db, 0, 0, 0, 0, 0⟩

/-- The row loop of `run_harvest` (src/harvest_framework.py lines
117-199), one call per CSV row, faithful to the source order:
blank-row skip; `max_downloads` budget check (break); `total_rows`
increment; empty identifier/URL skip; `do_need_download` decision for
both artifact types (skip when neither is needed); driver dispatch on
the fixed-up URL; `download_calls` increment; outcome recording through
the store; heartbeat print.  `drive` abstracts the driver callable and
`fixup` abstracts `fixup_url` (excluded collaborators); a driver that
raises is an `Except.error`, and — the loop body having no
`try/except` — the error is returned as-is, ending the run with the
store as it was before the failing row.  `stopFileExists` models
whether the configured stop-signal file exists when the k-th row is
about to be processed; `run_harvest` receives `config.stop_file` but
never reads it, so the parameter is (faithfully) never consulted. -/
def processRows (drive : String → String → Bool → Bool → Except String DriveResult)
    (fixup : String → String → String) (stopFileExists : Nat → Bool)
    (maxDownloads : Option Nat) (ftHtml ftPdf : String) (now : Int) :
    List (List String) → RunState → RunState × Option String
  | [], st => (st, none)
  | row :: rest, st =>
      if rowBlank row then
        processRows drive fixup stopFileExists maxDownloads ftHtml ftPdf now rest st
      else if budgetReached maxDownloads st.downloadCalls then
        (st, none)
      else
        let st1 : RunState := { st with totalRows := st.totalRows + 1 }
        if rowUrl row = "" ∨ rowCas row = "" then
          processRows drive fixup stopFileExists maxDownloads ftHtml ftPdf now rest st1
        else
          let needHtml := do_need_download st1.db (rowCas row) ftHtml
          let needPdf := do_need_download st1.db (rowCas row) ftPdf
          if needHtml = false ∧ needPdf = false then
            processRows drive fixup stopFileExists maxDownloads ftHtml ftPdf now rest st1
          else
            match drive (fixup (rowUrl row) (rowCas row)) (rowCas row) needHtml needPdf with
            | .error e => (st1, some e)
            | .ok res =>
                let st2 : RunState := { st1 with downloadCalls := st1.downloadCalls + 1 }
                let st3 : RunState :=
                  if needHtml then
                    if res.html.success then
                      { st2 with
                          db := log_success_nav st2.db (rowCas row) ftHtml res.html.local_file_path res.html.navigate_via now,
                          htmlSuccessCount := st2.htmlSuccessCount + 1 }
                    else
                      { st2 with db := log_failure_nav st2.db (rowCas row) ftHtml res.html.navigate_via now }
                  else st2
                let st4 : RunState :=
                  if needPdf then
                    if res.pdf.success then
                      { st3 with
                          db := log_success_nav st3.db (rowCas row) ftPdf res.pdf.local_file_path res.pdf.navigate_via now,
                          pdfSuccessCount := st3.pdfSuccessCount + 1 }
                    else
                      { st3 with db := log_failure_nav st3.db (rowCas row) ftPdf res.pdf.navigate_via now }
                  else st3
                processRows drive fixup stopFileExists maxDownloads ftHtml ftPdf now rest
                  { st4 with heartbeats := st4.heartbeats + 1 }

/-! ## C4: the stop-signal file is never consulted -/

/-- C4: `run_harvest` receives `config.stop_file` (Config comment:
"optional stop-file; when present the harvest stops gracefully") but the
loop contains no test for the file's existence.  Concretely: with the
stop file present from row 2 onwards (`stopFileExists k` true for every
k not below 2) and two valid rows, the loop still processes both rows
(`total_rows = 2`, two heartbeat lines) and ends normally — the claim
says only row 1 would be processed.  The embedding passes the
stop-signal environment into the loop, which — faithfully to the
source — never consults it. -/
theorem run_harvest_ignores_stop_file :
    (processRows
        (fun _ _ _ _ => .ok ⟨true, ⟨true, some "/f.html", none, some "http://n"⟩, ⟨true, some "/f.pdf", none, some "http://n"⟩⟩)
        (fun u _ => u) (fun k => 2 ≤ k) none "html" "pdf" 0
        [["111-11-1", "http://u1"], ["222-22-2", "http://u2"]]
        (initRunState ⟨true, []⟩)).1.totalRows = 2 ∧
    (processRows
        (fun _ _ _ _ => .ok ⟨true, ⟨true, some "/f.html", none, some "http://n"⟩, ⟨true, some "/f.pdf", none, some "http://n"⟩⟩)
        (fun u _ => u) (fun k => 2 ≤ k) none "html" "pdf" 0
        [["111-11-1", "http://u1"], ["222-22-2", "http://u2"]]
        (initRunState ⟨true, []⟩)).1.heartbeats = 2 ∧
    (processRows
        (fun _ _ _ _ => .ok ⟨true, ⟨true, some "/f.html", none, some "http://n"⟩, ⟨true, some "/f.pdf", none, some "http://n"⟩⟩)
        (fun u _ => u) (fun k => 2 ≤ k) none "html" "pdf" 0
        [["111-11-1", "http://u1"], ["222-22-2", "http://u2"]]
        (initRunState ⟨true, []⟩)).2 = none :=
  ⟨rfl, rfl, rfl⟩

/-! ## C5: driver exceptions are not caught by the orchestrator -/

/-- C5 counterexample.  The claim says a driver exception is caught at
the orchestrator boundary, recorded as a failed attempt, and the loop
continues with the next row.  With a driver that raises on row 1 of a
two-row input, the loop instead ends immediately with the error: the
final state shows `total_rows = 1` (row 2 never processed), an
unchanged, empty store (no failure recorded for the pending artifact
types) and zero heartbeats. -/
theorem driver_error_aborts_loop_cex :
    processRows (fun _ _ _ _ => .error "boom") (fun u _ => u) (fun _ => false) none "html" "pdf" 0
        [["111-11-1", "http://u1"], ["222-22-2", "http://u2"]] (initRunState ⟨true, []⟩)
      = (⟨⟨true, []⟩, 1, 0, 0, 0, 0⟩, some "boom") :=
  rfl

/-- C5 amended: `run_harvest` has no per-row exception handler — an
unexpected error raised by the driver callable on a dispatched row
propagates out of the loop as-is: the run ends at that row, nothing is
recorded in the store for the row's pending artifact types, and no
later row is processed.  (The drivers themselves catch their own errors
internally; only an error escaping the driver reaches the loop.) -/
theorem driver_error_propagates (e : String) (row : List String) (rest : List (List String))
    (st : RunState) (fixup : String → String → String) (stopF : Nat → Bool)
    (ftH ftP : String) (now : Int)
    (hblank : rowBlank row = false) (hurl : rowUrl row ≠ "") (hcas : rowCas row ≠ "")
    (hneed : do_need_download st.db (rowCas row) ftH = true) :
    processRows (fun _ _ _ _ => .error e) fixup stopF none ftH ftP now (row :: rest) st
      = ({ st with totalRows := st.totalRows + 1 }, some e) := by
  unfold processRows
  simp [hblank, budgetReached, hurl, hcas, hneed]

/-- Witness for `driver_error_propagates` at a concrete row and store. -/
theorem driver_error_propagates_witness :
    processRows (fun _ _ _ _ => .error "boom") (fun u _ => u) (fun _ => false) none "html" "pdf" 0
        [["111-11-1", "http://u1"]] (initRunState ⟨true, []⟩)
      = ({ initRunState ⟨true, []⟩ with totalRows := (initRunState ⟨true, []⟩).totalRows + 1 }, some "boom") :=
  driver_error_propagates "boom" ["111-11-1", "http://u1"] [] (initRunState ⟨true, []⟩)
    (fun u _ => u) (fun _ => false) "html" "pdf" 0 (by decide) (by decide) (by decide) (by decide)
